import Mathlib

/-!
Verification of the endpoint-resolution and cluster-bootstrap subsystem of
`cmd/server-main.go` (minio `server` command).

The Go source is shallowly embedded below.  Pure helper functions of the Go
standard library (`net/url.Parse`, `net.SplitHostPort`, `net.JoinHostPort`,
`path.Clean`, `strings.*`) are modelled over `List Char` so that every
definition is executable by the kernel.  Functions of this repository that are
referenced by `server-main.go` but whose sources live in other files
(`isLocalStorage`, `checkDuplicateEndpoints`, `byHostPath`,
`minErasureBlocks` / `maxErasureBlocks`, the named `errXL*` values) are
modelled from the specification and are marked as such in their doc comments.

Go's `fatalIf` terminates the process with a diagnostic; the whole validation
pipeline is therefore embedded as `Except String` values, where `.error`
stands for fatal process termination with the given diagnostic text, and Go
panics (out-of-range slice indexing) are likewise embedded as `.error` values.
-/

deriving instance DecidableEq for Except

namespace ServerMain

/-! ## Character and string helpers (kernel-computable models of Go string ops) -/

/-- Decidable test for an ASCII letter. -/
def isAlphaC (c : Char) : Bool :=
  ('a' ≤ c && c ≤ 'z') || ('A' ≤ c && c ≤ 'Z')

/-- Decidable test for an ASCII digit. -/
def isDigitC (c : Char) : Bool :=
  '0' ≤ c && c ≤ '9'

/-- Strict lexicographic order on character lists (Go `<` on strings). -/
def charListLt : List Char → List Char → Bool
  | [], [] => false
  | [], _ :: _ => true
  | _ :: _, [] => false
  | a :: as, b :: bs => if a < b then true else if b < a then false else charListLt as bs

/-- Go string comparison `a < b`. -/
def strLt (a b : String) : Bool := charListLt a.data b.data

/-- Does the character list start with the given pattern? -/
def listStartsWith : List Char → List Char → Bool
  | _, [] => true
  | [], _ :: _ => false
  | c :: cs, p :: ps => c = p && listStartsWith cs ps

/-- Model of Go `strings.Contains` (substring occurrence) on character lists. -/
def listContainsSub : List Char → List Char → Bool
  | [], pat => pat.isEmpty
  | c :: cs, pat => listStartsWith (c :: cs) pat || listContainsSub cs pat

/-- Model of Go `strings.Contains`. -/
def strContains (s pat : String) : Bool := listContainsSub s.data pat.data

/-- Index of the last occurrence of a character, if any. -/
def lastIndexOfC (c : Char) : List Char → Option Nat
  | [] => none
  | a :: as =>
    match lastIndexOfC c as with
    | some i => some (i + 1)
    | none => if a = c then some 0 else none

/-- Split at the first occurrence of `sep`, keeping the separator in the
second component; the whole list goes into the first component when `sep`
does not occur.  Models Go `net/url`'s `split(s, sep, false)`. -/
def splitKeepSep (sep : Char) : List Char → (List Char × List Char)
  | [] => ([], [])
  | c :: cs =>
    if c = sep then ([], c :: cs)
    else
      let r := splitKeepSep sep cs
      (c :: r.1, r.2)

/-- The part after the first occurrence of `sep`, if `sep` occurs at all.
Models Go `strings.SplitN(s, sep, 2)[1]` (which panics when `sep` is absent;
absence is reported as `none` here). -/
def afterFirstC (sep : Char) : List Char → Option (List Char)
  | [] => none
  | c :: cs => if c = sep then some cs else afterFirstC sep cs

/-- Split a character list on a separator character (used by `pathClean`). -/
def splitOnC (sep : Char) : List Char → List (List Char)
  | [] => [[]]
  | c :: cs =>
    let r := splitOnC sep cs
    if c = sep then [] :: r
    else
      match r with
      | [] => [[c]]
      | h :: t => (c :: h) :: t

/-- Join character-list components with a separator. -/
def joinWithC (sep : Char) : List (List Char) → List Char
  | [] => []
  | [x] => x
  | x :: y :: t => x ++ sep :: joinWithC sep (y :: t)

/-- Map to ASCII lower case (model of Go `strings.ToLower` for ASCII input). -/
def lowerChar (c : Char) : Char :=
  if 'A' ≤ c && c ≤ 'Z' then Char.ofNat (c.toNat + 32) else c

/-- Lower-case a string (ASCII). -/
def lowerStr (s : String) : String := String.mk (s.data.map lowerChar)

/-- Model of Go `strings.Join(strs, " ")`. -/
def joinSpace : List String → String
  | [] => ""
  | [d] => d
  | d :: e :: t => d ++ " " ++ joinSpace (e :: t)

/-! ## Model of Go `path.Clean` -/

/-- One step of `path.Clean`'s element processing: push a component onto the
output stack, resolving `.` and `..` lexically. -/
def cleanComps (rooted : Bool) : List (List Char) → List (List Char) → List (List Char)
  | [], acc => acc.reverse
  | c :: rest, acc =>
    if c = [] || c = ['.'] then cleanComps rooted rest acc
    else if c = ['.', '.'] then
      match acc with
      | a :: acc2 =>
        if a = ['.', '.'] then cleanComps rooted rest (c :: a :: acc2)
        else cleanComps rooted rest acc2
      | [] => if rooted then cleanComps rooted rest [] else cleanComps rooted rest [c]
    else cleanComps rooted rest (c :: acc)

/-- Model of Go `path.Clean`: lexical cleaning of slash-separated paths.
Returns `"."` for the empty path, removes `.` and empty components, resolves
`..` against earlier components, and keeps a leading slash. -/
def pathClean (s : String) : String :=
  match s.data with
  | [] => "."
  | c :: cs =>
    let rooted := c = '/'
    let comps := cleanComps rooted (splitOnC '/' (c :: cs)) []
    match comps with
    | [] => if rooted then "/" else "."
    | _ =>
      if rooted then String.mk ('/' :: joinWithC '/' comps)
      else String.mk (joinWithC '/' comps)

/-! ## Model of Go `net.SplitHostPort` / `net.JoinHostPort` -/

/-- Model of Go `net.SplitHostPort` for addresses without stray brackets:
splits `host:port` at the last colon; a bracketed IPv6 host `[h]:port` loses
its brackets; an address without a colon fails with the
`missing port in address` error; several unbracketed colons fail with the
`too many colons in address` error. -/
def splitHostPort (hostport : String) : Except String (String × String) :=
  match lastIndexOfC ':' hostport.data with
  | none => .error ("address " ++ hostport ++ ": missing port in address")
  | some i =>
    let host := hostport.data.take i
    let port := hostport.data.drop (i + 1)
    match host with
    | '[' :: inner =>
      if inner.getLast? = some ']' then .ok (String.mk inner.dropLast, String.mk port)
      else .error ("address " ++ hostport ++ ": missing ']' in address")
    | _ =>
      if host.contains ':' then .error ("address " ++ hostport ++ ": too many colons in address")
      else .ok (String.mk host, String.mk port)

/-- Model of Go `net.JoinHostPort`: brackets the host when it contains a
colon. -/
def joinHostPort (host port : String) : String :=
  if host.data.contains ':' then "[" ++ host ++ "]:" ++ port
  else host ++ ":" ++ port

/-! ## Model of Go `net/url.Parse` (restricted to URLs without userinfo,
query, fragment or percent-escapes, which is the shape of the server's disk
arguments) -/

/-- A parsed URL.  Field `opq` is Go's `URL.Opaque` (the rootless remainder
after the scheme). -/
structure URL where
  scheme : String
  host : String
  path : String
  opq : String
  deriving DecidableEq, Repr

/-- Model of Go `net/url.getScheme`: returns `some (scheme, rest)` when the
input starts with `scheme:`, `some ("", input)` when there is no scheme, and
an error for a leading colon. -/
def getSchemeAux (orig : List Char) (acc : List Char) : List Char → Except String (List Char × List Char)
  | [] => .ok ([], orig)
  | c :: rest =>
    if c = ':' then
      if acc = [] then .error "missing protocol scheme"
      else .ok (acc.reverse, rest)
    else if isAlphaC c then getSchemeAux orig (c :: acc) rest
    else if isDigitC c || c = '+' || c = '-' || c = '.' then
      if acc = [] then .ok ([], orig) else getSchemeAux orig (c :: acc) rest
    else .ok ([], orig)

/-- Go `validOptionalPort`: empty, or a colon followed by decimal digits. -/
def validOptionalPort : List Char → Bool
  | [] => true
  | ':' :: digits => digits.all isDigitC
  | _ => false

/-- Model of Go `net/url.parseHost` restricted to non-bracketed hosts: the
characters after the last colon, when a colon is present, must be decimal
digits. -/
def parseAuthorityHost (authority : List Char) : Except String String :=
  let host := match afterFirstC '@' authority.reverse with
    | some beforeAt => beforeAt.reverse
    | none => authority
  match lastIndexOfC ':' host with
  | none => .ok (String.mk host)
  | some i =>
    if host.take 1 = ['['] then .ok (String.mk host)
    else if validOptionalPort (host.drop i) then .ok (String.mk host)
    else .error "invalid port after host"

/-- Model of Go `net/url.Parse` on the inputs relevant to disk endpoints:
scheme detection, the rootless-opaque rule, the `//authority` rule (with the
`///` exception) and the colon check on a relative first path segment. -/
def urlParse (rawurl : String) : Except String URL :=
  match getSchemeAux rawurl.data [] rawurl.data with
  | .error e => .error e
  | .ok (schemeCs, rest) =>
    let scheme := lowerStr (String.mk schemeCs)
    if ¬ listStartsWith rest ['/'] then
      if scheme ≠ "" then
        .ok { scheme := scheme, host := "", path := "", opq := String.mk rest }
      else if (splitKeepSep '/' rest).1.contains ':' then
        .error ("parse " ++ rawurl ++ ": first path segment in URL cannot contain colon")
      else
        .ok { scheme := "", host := "", path := String.mk rest, opq := "" }
    else
      if listStartsWith rest ['/', '/'] && ¬ (scheme = "" && listStartsWith rest ['/', '/', '/']) then
        let ap := splitKeepSep '/' (rest.drop 2)
        match parseAuthorityHost ap.1 with
        | .error e => .error e
        | .ok host => .ok { scheme := scheme, host := host, path := String.mk ap.2, opq := "" }
      else
        .ok { scheme := scheme, host := "", path := String.mk rest, opq := "" }

/-- Model of Go `URL.String()` for the URL shapes produced by `urlParse`. -/
def URL.render (u : URL) : String :=
  (if u.scheme ≠ "" then u.scheme ++ ":" else "") ++
    (if u.opq ≠ "" then u.opq
     else (if u.host ≠ "" then "//" ++ u.host else "") ++ u.path)

/-! ## Embedding of `cmd/server-main.go` -/

/-- Modelled from the spec: the repository-wide `errInvalidArgument` error
value (defined outside `src/`), reported for malformed or empty arguments. -/
def errInvalidArgument : String := "Invalid arguments specified"

/-- Diagnostic of line 115 of `server-main.go`. -/
def portConfigurableErr (host : String) : String :=
  "Invalid Argument " ++ host ++ ", port configurable using --address :<port>"

/-- Diagnostic of line 123 of `server-main.go`. -/
def portMandatoryErr (host : String) : String :=
  "Invalid Argument " ++ host ++ ", port mandatory when --address <host>:<port> is used"

/-- The `port` value the loop body of `parseStorageEndpoints` works with:
Go ignores the `missing port in address` error of `net.SplitHostPort`, in
which case the `port` variable keeps its zero value `""`; every other split
error is returned. -/
def portOf (host : String) : Except String String :=
  match splitHostPort host with
  | .ok hp => .ok hp.2
  | .error e => if strContains e "missing port in address" then .ok "" else .error e

/-- Loop body of `parseStorageEndpoints` (lines 94–127 of `server-main.go`)
for one raw endpoint token, given the global bind host and port
(`globalMinioHost` / `globalMinioPort`). -/
def processEndpoint (globalMinioHost globalMinioPort : String) (ep : String) : Except String URL :=
  if ep = "" then
    .error errInvalidArgument
  else
    match urlParse ep with
    | .error e => .error e
    | .ok u =>
      if u.host = "" then .ok u
      else
        match portOf u.host with
        | .error e => .error e
        | .ok port =>
          if globalMinioHost = "" then
            if port ≠ "" then .error (portConfigurableErr u.host)
            else .ok { u with host := joinHostPort u.host globalMinioPort }
          else
            if port = "" then .error (portMandatoryErr u.host)
            else .ok u

/-- `parseStorageEndpoints` (lines 93–130 of `server-main.go`): parse all
command-line endpoint tokens, failing fast on the first bad token. -/
def parseStorageEndpoints (globalMinioHost globalMinioPort : String) : List String → Except String (List URL)
  | [] => .ok []
  | ep :: rest =>
    match processEndpoint globalMinioHost globalMinioPort ep with
    | .error e => .error e
    | .ok u =>
      match parseStorageEndpoints globalMinioHost globalMinioPort rest with
      | .error e => .error e
      | .ok us => .ok (u :: us)

/-- Modelled from the spec: the fixed minimum erasure-set cardinality
(constant defined outside `src/`; the source comment on line 177 enumerates
the supported counts 4, 6, 8, 10, 12, 14, 16). -/
def minErasureBlocks : Nat := 4

/-- Modelled from the spec: the fixed maximum erasure-set cardinality
(constant defined outside `src/`; see `minErasureBlocks`). -/
def maxErasureBlocks : Nat := 16

/-- Modelled from the spec: the named too-many-disks error value
(defined outside `src/`). -/
def errXLMaxDisks : String := "Number of disks are higher than supported maximum count"

/-- Modelled from the spec: the named too-few-disks error value
(defined outside `src/`). -/
def errXLMinDisks : String := "Number of disks are smaller than supported minimum count"

/-- Modelled from the spec: the named odd-disk-count error value
(defined outside `src/`). -/
def errXLNumDisks : String := "Total number of disks should be an even number"

/-- `checkSufficientDisks` (lines 161–184 of `server-main.go`): bounds and
evenness checks on the number of disks, in source order. -/
def checkSufficientDisks (eps : List URL) : Except String Unit :=
  let total := eps.length
  if total > maxErasureBlocks then .error errXLMaxDisks
  else if total < minErasureBlocks then .error errXLMinDisks
  else if total % 2 = 0 then .ok ()
  else .error errXLNumDisks

/-- Modelled from the spec: `isLocalStorage` (defined outside `src/`)
decides whether an endpoint names storage reachable from the current
process; an empty host is always local, a named host is compared against
the process's network identity, abstracted here as the predicate
`isLocalHost`. -/
def isLocalStorage (isLocalHost : String → Bool) (u : URL) : Bool :=
  u.host = "" || isLocalHost u.host

/-- `isDistributedSetup` (lines 187–197 of `server-main.go`): true when at
least one disk is not local. -/
def isDistributedSetup (isLocalHost : String → Bool) (eps : List URL) : Bool :=
  eps.any (fun ep => ¬ isLocalStorage isLocalHost ep)

/-- `isAnyEndpointLocal` (lines 310–319 of `server-main.go`): true when at
least one disk is local. -/
def isAnyEndpointLocal (isLocalHost : String → Bool) (eps : List URL) : Bool :=
  eps.any (fun ep => isLocalStorage isLocalHost ep)

/-- Does the scheme consist of a single letter `a`–`z`?  (Line 216 of
`server-main.go`; `url.Parse` lower-cases every scheme, so drive letters
reach this test in lower case.) -/
def driveLetterB (s : String) : Bool :=
  match s.data with
  | [c] => 'a' ≤ c && c ≤ 'z'
  | _ => false

/-- Is the cleaned path empty or a root path?  (The four literals of lines
204 and 220 of `server-main.go`.) -/
def badPathB (s : String) : Bool :=
  s = "" || s = "." || s = "/" || s = "\\"

/-- `checkEndpointURL` (lines 200–229 of `server-main.go`).  The parameter
`windows` embeds `runtime.GOOS == "windows"`.  The out-of-range slice index
that Go would hit when the cleaned drive URL no longer contains a colon is
embedded as an `.error`. -/
def checkEndpointURL (windows : Bool) (u : URL) : Except String Unit :=
  if u.scheme = "" || u.scheme = "http" || u.scheme = "https" then
    let urlPath := pathClean u.path
    if badPathB urlPath then .error "Empty or root path is not allowed" else .ok ()
  else if windows && driveLetterB u.scheme then
    match afterFirstC ':' (pathClean u.render).data with
    | none => .error "index out of range"
    | some p =>
      let urlPath := String.mk p
      if badPathB urlPath then .error "Empty or root path is not allowed" else .ok ()
  else .error "Invalid scheme"

/-- The scheme part of the acceptance condition of `checkEndpointURL`:
empty, `http`, `https`, or — on the drive-letter platform — a single
letter (`url.Parse` lower-cases every scheme before it reaches this
check). -/
def schemeOkB (windows : Bool) (u : URL) : Bool :=
  (u.scheme = "" || u.scheme = "http" || u.scheme = "https") || (windows && driveLetterB u.scheme)

/-- The normalized path that `checkEndpointURL` inspects: the cleaned URL
path in the plain case, the remainder after the drive colon of the cleaned
rendered URL in the drive-letter case, and nothing for a rejected scheme. -/
def normalizedPath (windows : Bool) (u : URL) : Option String :=
  if u.scheme = "" || u.scheme = "http" || u.scheme = "https" then some (pathClean u.path)
  else if windows && driveLetterB u.scheme then
    (afterFirstC ':' (pathClean u.render).data).map String.mk
  else none

/-- `checkEndpointsSyntax` (lines 232–240 of `server-main.go`): validate
every endpoint, wrapping a failure with the path and the raw argument.  The
two lists walk in step as the Go loop indexes `disks[i]`. -/
def checkEndpointsSyntax (windows : Bool) : List URL → List String → Except String Unit
  | [], _ => .ok ()
  | _ :: _, [] => .error "index out of range"
  | u :: us, d :: ds =>
    match checkEndpointURL windows u with
    | .error e => .error (e ++ ": " ++ u.path ++ " (" ++ d ++ ")")
    | .ok () => checkEndpointsSyntax windows us ds

/-- Modelled from the spec: `checkDuplicateEndpoints` (defined outside
`src/`) rejects a set containing the same endpoint twice. -/
def checkDuplicateEndpoints (eps : List URL) : Except String Unit :=
  if eps.Nodup then .ok () else .error "Duplicate entries found"

/-- Diagnostic of line 269 of `server-main.go`. -/
def fsSetupErr (u : URL) : String :=
  u.render ++ ", FS setup expects a filesystem path"

/-- Lines 262–271 of `server-main.go`: disk-count validation for the XL
(erasure) case, or the filesystem-path check for the single-disk case.  The
`endpoints[0]` indexing of the empty list (a Go panic) is embedded as an
`.error`. -/
def classifyDisks (endpoints : List URL) : Except String Unit :=
  if endpoints.length > 1 then checkSufficientDisks endpoints
  else
    match endpoints with
    | [] => .error "index out of range"
    | e0 :: _ => if e0.host ≠ "" && e0.scheme ≠ "" then .error (fsSetupErr e0) else .ok ()

/-- Diagnostic of line 283 of `server-main.go`. -/
def portMissingErr : String := "Port missing, Host:Port should be specified for --address"

/-- Diagnostic of line 293 of `server-main.go`. -/
def notAvailableErr (serverAddr : String) (disks : List String) : String :=
  serverAddr ++ " is not available in " ++ joinSpace disks

/-- Diagnostic of line 297 of `server-main.go`. -/
def matchesEntriesErr (serverAddr : String) (cnt : Nat) (disks : List String) : String :=
  serverAddr ++ " matches " ++ toString cnt ++ " entries in " ++ joinSpace disks

/-- Lines 279–299 of `server-main.go`: when the bind address carries an
explicit host, it must match exactly one endpoint's `host:port`. -/
def hostMatchCheck (serverAddr portStr : String) (endpoints : List URL) (disks : List String) : Except String Unit :=
  if portStr = "" then .error portMissingErr
  else
    let foundCnt := endpoints.countP (fun ep => ep.host = serverAddr)
    if foundCnt = 0 then .error (notAvailableErr serverAddr disks)
    else if foundCnt > 1 then .error (matchesEntriesErr serverAddr foundCnt disks)
    else .ok ()

/-- Diagnostic of line 304 of `server-main.go`. -/
def certsNotProvidedErr : String := "Certificates not provided for secure configuration"

/-- Lines 301–306 of `server-main.go`: every `https` endpoint requires TLS
material (`globalIsSSL`). -/
def checkSchemeHttps (globalIsSSL : Bool) : List URL → Except String Unit
  | [] => .ok ()
  | u :: us =>
    if u.scheme = "https" && ¬ globalIsSSL then .error certsNotProvidedErr
    else checkSchemeHttps globalIsSSL us

/-- `checkServerSyntax` (lines 243–307 of `server-main.go`), with the global
state (`globalMinioHost`, `globalMinioPort`, `globalIsSSL`), the platform
and the process's network identity passed explicitly. -/
def checkServerSyntax (windows : Bool) (isLocalHost : String → Bool) (globalIsSSL : Bool)
    (globalMinioHost globalMinioPort serverAddr : String) (disks : List String) : Except String Unit :=
  match splitHostPort serverAddr with
  | .error e => .error e
  | .ok (host, portStr) =>
    match parseStorageEndpoints globalMinioHost globalMinioPort disks with
    | .error e => .error e
    | .ok endpoints =>
      match checkEndpointsSyntax windows endpoints disks with
      | .error e => .error e
      | .ok () =>
        match checkDuplicateEndpoints endpoints with
        | .error e => .error e
        | .ok () =>
          match classifyDisks endpoints with
          | .error e => .error e
          | .ok () =>
            if ¬ isDistributedSetup isLocalHost endpoints then .ok ()
            else
              match (if host ≠ "" then hostMatchCheck serverAddr portStr endpoints disks else .ok ()) with
              | .error e => .error e
              | .ok () => checkSchemeHttps globalIsSSL endpoints

/-- The `errEmptyPort` value of line 322 of `server-main.go`. -/
def errEmptyPort : String :=
  "Port cannot be empty or single zero, please use --address to pick a specific port"

/-- Model of Go `strconv.Atoi` restricted to its success test: an optional
sign followed by at least one decimal digit. -/
def atoiOk (s : String) : Bool :=
  match s.data with
  | [] => false
  | '-' :: ds => ¬ ds.isEmpty && ds.all isDigitC
  | '+' :: ds => ¬ ds.isEmpty && ds.all isDigitC
  | ds => ds.all isDigitC

/-- `getHostPort` (lines 325–352 of `server-main.go`).  The operating-system
port-availability probe is abstracted as the parameter `portAvail`. -/
def getHostPort (portAvail : String → Except String Unit) (address : String) : Except String (String × String) :=
  match splitHostPort address with
  | .error e => .error e
  | .ok (host, port) =>
    if port = "0" || port = "" then .error errEmptyPort
    else if ¬ atoiOk port then .error ("parsing " ++ port ++ ": invalid syntax")
    else
      match portAvail port with
      | .error e => .error e
      | .ok () => .ok (host, port)

/-! ## Deterministic ordering (`byHostPath`) -/

/-- Modelled from the spec: the total order used by `sort.Sort(byHostPath(...))`
(type defined outside `src/`) — host compared first, path second. -/
def hostPathLe (u v : URL) : Bool :=
  if u.host = v.host then u.path = v.path || strLt u.path v.path
  else strLt u.host v.host

/-- Ordered insertion with respect to `hostPathLe`. -/
def insertHostPath (u : URL) : List URL → List URL
  | [] => [u]
  | v :: vs => if hostPathLe u v then u :: v :: vs else v :: insertHostPath u vs

/-- Modelled from the spec: the deterministic ordering step of `serverMain`
(line 392 of `server-main.go`) — sort the validated endpoints by
(host, path). -/
def sortByHostPath : List URL → List URL
  | [] => []
  | u :: us => insertHostPath u (sortByHostPath us)

/-! ## The `serverMain` bootstrap pipeline up to disk initialization -/

/-- The validation pipeline of `serverMain` (lines 355–394 of
`server-main.go`) up to the point where the per-disk storage handles are
initialized.  The continuation `k` stands for everything from
`initStorageDisks` on (disk initialization, housekeeping, listener startup,
format wait); it receives the sorted endpoint list exactly as the source
passes it on.  The usage exit for missing arguments or `help` is embedded as
an `.error`; `minioInit` and `checkUpdate` perform no validation and are
omitted. -/
def serverMainBoot {σ : Type} (windows : Bool) (isLocalHost : String → Bool) (globalIsSSL : Bool)
    (portAvail : String → Except String Unit) (serverAddr : String) (args : List String)
    (k : List URL → Except String σ) : Except String σ :=
  if args.isEmpty || args.head? = some "help" then .error "usage"
  else
    match getHostPort portAvail serverAddr with
    | .error e => .error e
    | .ok (gh, gp) =>
      match checkServerSyntax windows isLocalHost globalIsSSL gh gp serverAddr args with
      | .error e => .error e
      | .ok () =>
        match parseStorageEndpoints gh gp args with
        | .error e => .error e
        | .ok endpoints =>
          if ¬ isAnyEndpointLocal isLocalHost endpoints then
            .error "None of the disks passed as command line args are local to this server."
          else k (sortByHostPath endpoints)

/-! ## Theorems -/

theorem parseStorageEndpoints_error_of_mem {gh gp ep : String} {eps : List String} {e : String}
    (hmem : ep ∈ eps) (herr : processEndpoint gh gp ep = .error e) :
    ∃ e2, parseStorageEndpoints gh gp eps = .error e2 := by
  induction eps with
  | nil => cases hmem
  | cons a rest ih =>
    cases hmem with
    | head => exact ⟨e, by simp [parseStorageEndpoints, herr]⟩
    | tail _ hmem2 =>
      cases ha : processEndpoint gh gp a with
      | error e3 => exact ⟨e3, by simp [parseStorageEndpoints, ha]⟩
      | ok u =>
        obtain ⟨e2, h2⟩ := ih hmem2
        exact ⟨e2, by simp [parseStorageEndpoints, ha, h2]⟩

/-- Claim C1: for every endpoint token with a non-empty host parsed by
`parseStorageEndpoints`, when no global bind address was given
(`globalMinioHost = ""`) an explicit per-endpoint port is rejected with the
port-configurable error, when a global bind address was given a missing
per-endpoint port is rejected with the port-mandatory error, the whole batch
is rejected in both cases, and the guards of the two rules are mutually
exclusive. -/
theorem parseStorageEndpoints_port_rules (gh gp ep : String) (eps : List String) (u : URL)
    (p : String) (hmem : ep ∈ eps) (hu : urlParse ep = .ok u) (hhost : u.host ≠ "")
    (hp : portOf u.host = .ok p) :
    ((gh = "" ∧ p ≠ "") →
      processEndpoint gh gp ep = .error (portConfigurableErr u.host) ∧
        ∃ e, parseStorageEndpoints gh gp eps = .error e) ∧
    ((gh ≠ "" ∧ p = "") →
      processEndpoint gh gp ep = .error (portMandatoryErr u.host) ∧
        ∃ e, parseStorageEndpoints gh gp eps = .error e) ∧
    ¬ ((gh = "" ∧ p ≠ "") ∧ (gh ≠ "" ∧ p = "")) := by
  have hep : ep ≠ "" := by
    intro h
    subst h
    have hnil : urlParse "" = .ok ⟨"", "", "", ""⟩ := rfl
    rw [hnil] at hu
    injection hu with h2
    exact hhost (by rw [← h2])
  refine ⟨?_, ?_, ?_⟩
  · rintro ⟨hgh, hpne⟩
    have hproc : processEndpoint gh gp ep = .error (portConfigurableErr u.host) := by
      simp [processEndpoint, hep, hu, hhost, hp, hgh, hpne]
    exact ⟨hproc, parseStorageEndpoints_error_of_mem hmem hproc⟩
  · rintro ⟨hgh, hpe⟩
    have hproc : processEndpoint gh gp ep = .error (portMandatoryErr u.host) := by
      simp [processEndpoint, hep, hu, hhost, hp, hgh, hpe]
    exact ⟨hproc, parseStorageEndpoints_error_of_mem hmem hproc⟩
  · rintro ⟨⟨h1, _⟩, ⟨h2, _⟩⟩
    exact h2 h1

/-- Witness for `parseStorageEndpoints_port_rules` at a concrete input. -/
theorem parseStorageEndpoints_port_rules_witness :
    processEndpoint "" "9000" "http://h:7000/d1" = .error (portConfigurableErr "h:7000") ∧
      ∃ e, parseStorageEndpoints "" "9000" ["http://h:7000/d1"] = .error e :=
  (parseStorageEndpoints_port_rules "" "9000" "http://h:7000/d1" ["http://h:7000/d1"]
      ⟨"http", "h:7000", "/d1", ""⟩ "7000" (by decide) (by decide) (by decide) (by decide)).1
    ⟨rfl, by decide⟩

theorem joinHostPort_has_colon (h p : String) : ':' ∈ (joinHostPort h p).data := by
  unfold joinHostPort
  by_cases hc : h.data.contains ':' = true
  · rw [if_pos hc]
    simp only [String.data_append, List.mem_append]
    exact Or.inl (Or.inr (by decide))
  · rw [if_neg hc]
    simp only [String.data_append, List.mem_append]
    exact Or.inl (Or.inr (by decide))

/-- Claim C9: whenever `parseStorageEndpoints` succeeds with no global bind
host fixed, every returned endpoint with a non-empty host has had the global
bind port joined onto its original non-empty host, so it carries an explicit
`host:port` (its host contains a colon). -/
theorem parseStorageEndpoints_joins_global_port (gp : String) (eps : List String)
    (us : List URL) (u : URL) (hparse : parseStorageEndpoints "" gp eps = .ok us)
    (hmem : u ∈ us) (hhost : u.host ≠ "") :
    ∃ h, h ≠ "" ∧ u.host = joinHostPort h gp ∧ ':' ∈ u.host.data := by
  induction eps generalizing us with
  | nil =>
    rw [parseStorageEndpoints] at hparse
    injection hparse with h2
    subst h2
    cases hmem
  | cons ep rest ih =>
    rw [parseStorageEndpoints] at hparse
    cases hpe : processEndpoint "" gp ep with
    | error e => rw [hpe] at hparse; cases hparse
    | ok v =>
      rw [hpe] at hparse
      cases hpr : parseStorageEndpoints "" gp rest with
      | error e => rw [hpr] at hparse; cases hparse
      | ok vs =>
        rw [hpr] at hparse
        injection hparse with h2
        subst h2
        cases hmem with
        | tail _ hm2 => exact ih vs hpr hm2
        | head =>
          by_cases he : ep = ""
          · simp [processEndpoint, he] at hpe
          · cases hw : urlParse ep with
            | error e => simp [processEndpoint, he, hw] at hpe
            | ok w =>
              by_cases hwh : w.host = ""
              · simp [processEndpoint, he, hw, hwh] at hpe
                subst hpe
                exact absurd hwh hhost
              · cases hpo : portOf w.host with
                | error e => simp [processEndpoint, he, hw, hwh, hpo] at hpe
                | ok port =>
                  by_cases hpn : port = ""
                  · simp [processEndpoint, he, hw, hwh, hpo, hpn] at hpe
                    refine ⟨w.host, hwh, ?_, ?_⟩
                    · rw [← hpe]
                    · rw [← hpe]
                      exact joinHostPort_has_colon w.host gp
                  · simp [processEndpoint, he, hw, hwh, hpo, hpn] at hpe

/-- Witness for `parseStorageEndpoints_joins_global_port` at a concrete
input. -/
theorem parseStorageEndpoints_joins_global_port_witness :
    ∃ h, h ≠ "" ∧ ("10.0.0.1:9000" : String) = joinHostPort h "9000" ∧
      ':' ∈ ("10.0.0.1:9000" : String).data :=
  parseStorageEndpoints_joins_global_port "9000" ["http://10.0.0.1/d1"]
    [⟨"http", "10.0.0.1:9000", "/d1", ""⟩] ⟨"http", "10.0.0.1:9000", "/d1", ""⟩
    (by decide) (by decide) (by decide)

/-- Claim C3 counterexample: a list of three disks is odd and larger than
one, yet `checkSufficientDisks` does not fail with the odd-disk-count error
`errXLNumDisks` — it fails with the too-few-disks error `errXLMinDisks`. -/
theorem checkSufficientDisks_odd_three_cex :
    1 < ([⟨"", "", "/1", ""⟩, ⟨"", "", "/2", ""⟩, ⟨"", "", "/3", ""⟩] : List URL).length ∧
    ([⟨"", "", "/1", ""⟩, ⟨"", "", "/2", ""⟩, ⟨"", "", "/3", ""⟩] : List URL).length % 2 = 1 ∧
    checkSufficientDisks [⟨"", "", "/1", ""⟩, ⟨"", "", "/2", ""⟩, ⟨"", "", "/3", ""⟩] ≠
      .error errXLNumDisks ∧
    checkSufficientDisks [⟨"", "", "/1", ""⟩, ⟨"", "", "/2", ""⟩, ⟨"", "", "/3", ""⟩] =
      .error errXLMinDisks := by
  decide

/-- Claim C3 (amended): for every endpoint list of odd size within the
erasure-set cardinality bounds, `checkSufficientDisks` fails with the
odd-disk-count error `errXLNumDisks`, which is distinct from the
too-few-disks and too-many-disks errors; an odd size outside the bounds
fails with the corresponding bound error instead. -/
theorem checkSufficientDisks_odd_in_bounds (eps : List URL)
    (hmin : minErasureBlocks ≤ eps.length) (hmax : eps.length ≤ maxErasureBlocks)
    (hodd : eps.length % 2 = 1) :
    checkSufficientDisks eps = .error errXLNumDisks ∧
      errXLNumDisks ≠ errXLMinDisks ∧ errXLNumDisks ≠ errXLMaxDisks := by
  refine ⟨?_, by decide, by decide⟩
  unfold checkSufficientDisks
  rw [if_neg (Nat.not_lt.mpr hmax), if_neg (Nat.not_lt.mpr hmin), if_neg (by omega)]

/-- Witness for `checkSufficientDisks_odd_in_bounds` at a concrete input. -/
theorem checkSufficientDisks_odd_in_bounds_witness :
    checkSufficientDisks
        [⟨"", "", "/1", ""⟩, ⟨"", "", "/2", ""⟩, ⟨"", "", "/3", ""⟩, ⟨"", "", "/4", ""⟩,
          ⟨"", "", "/5", ""⟩] = .error errXLNumDisks ∧
      errXLNumDisks ≠ errXLMinDisks ∧ errXLNumDisks ≠ errXLMaxDisks :=
  checkSufficientDisks_odd_in_bounds _ (by decide) (by decide) (by decide)

/-- Claim C10: the single-disk (FS) rejection of `classifyDisks` fires
exactly when the lone endpoint has both a non-empty host and a non-empty
scheme; an endpoint carrying at most one of the two passes the single-disk
classification. -/
theorem classifyDisks_single_iff (u : URL) :
    classifyDisks [u] = .ok () ↔ (u.host = "" ∨ u.scheme = "") := by
  by_cases h1 : u.host = "" <;> by_cases h2 : u.scheme = "" <;>
    simp [classifyDisks, h1, h2]

/-- Claim C5: when no endpoint of the parsed list resolves as local to the
current process, the bootstrap pipeline aborts with an error — uniformly for
every continuation `k`, i.e. before the per-disk storage handles, the
housekeeping, or the listener (all contained in `k`) are ever invoked. -/
theorem serverMainBoot_no_local_aborts {σ : Type} (windows : Bool)
    (isLocalHost : String → Bool) (globalIsSSL : Bool)
    (portAvail : String → Except String Unit) (serverAddr : String) (args : List String)
    (gh gp : String) (endpoints : List URL)
    (hgp : getHostPort portAvail serverAddr = .ok (gh, gp))
    (hparse : parseStorageEndpoints gh gp args = .ok endpoints)
    (hnl : isAnyEndpointLocal isLocalHost endpoints = false) :
    ∃ e, ∀ k : List URL → Except String σ,
      serverMainBoot windows isLocalHost globalIsSSL portAvail serverAddr args k = .error e := by
  by_cases hguard : (args.isEmpty || args.head? = some "help") = true
  · exact ⟨"usage", fun k => by simp [serverMainBoot, hguard]⟩
  · cases hcss : checkServerSyntax windows isLocalHost globalIsSSL gh gp serverAddr args with
    | error e => exact ⟨e, fun k => by simp [serverMainBoot, hguard, hgp, hcss]⟩
    | ok u1 =>
      exact ⟨"None of the disks passed as command line args are local to this server.",
        fun k => by simp [serverMainBoot, hguard, hgp, hcss, hparse, hnl]⟩

/-- Witness for `serverMainBoot_no_local_aborts` at the spec's scenario:
two remote disks, default bind address, nothing local. -/
theorem serverMainBoot_no_local_aborts_witness :
    ∃ e, ∀ k : List URL → Except String Unit,
      serverMainBoot false (fun _ => false) false (fun _ => .ok ()) ":9000"
        ["http://10.0.0.1/d1", "http://10.0.0.2/d2"] k = .error e :=
  serverMainBoot_no_local_aborts false (fun _ => false) false (fun _ => .ok ()) ":9000"
    ["http://10.0.0.1/d1", "http://10.0.0.2/d2"] "" "9000"
    [⟨"http", "10.0.0.1:9000", "/d1", ""⟩, ⟨"http", "10.0.0.2:9000", "/d2", ""⟩]
    (by decide) (by decide) (by decide)

theorem checkSchemeHttps_error_of_mem {eps : List URL} {u : URL}
    (hmem : u ∈ eps) (hs : u.scheme = "https") :
    checkSchemeHttps false eps = .error certsNotProvidedErr := by
  induction eps with
  | nil => cases hmem
  | cons a rest ih =>
    cases hmem with
    | head => simp [checkSchemeHttps, hs]
    | tail _ h2 =>
      by_cases ha : a.scheme = "https"
      · simp [checkSchemeHttps, ha]
      · simp [checkSchemeHttps, ha, ih h2]

/-- Claim C4 counterexample: a validated endpoint list whose endpoints all
have the `https` scheme, with no TLS certificates loaded, on which
`checkServerSyntax` nevertheless succeeds — because every endpoint is local
to the process, the early non-distributed return skips the certificate
check. -/
theorem checkServerSyntax_https_skipped_cex :
    parseStorageEndpoints "myhost" "9000"
        ["https://h:9000/d1", "https://h:9000/d2", "https://h:9000/d3", "https://h:9000/d4"] =
      .ok [⟨"https", "h:9000", "/d1", ""⟩, ⟨"https", "h:9000", "/d2", ""⟩,
        ⟨"https", "h:9000", "/d3", ""⟩, ⟨"https", "h:9000", "/d4", ""⟩] ∧
    (⟨"https", "h:9000", "/d1", ""⟩ : URL).scheme = "https" ∧
    checkServerSyntax false (fun _ => true) false "myhost" "9000" "myhost:9000"
      ["https://h:9000/d1", "https://h:9000/d2", "https://h:9000/d3", "https://h:9000/d4"] =
      .ok () := by
  decide

/-- Claim C4 (amended): for every endpoint list that is part of a
distributed setup (at least one endpoint not local), if some endpoint has
scheme `https` and no TLS certificates are loaded, `checkServerSyntax`
fails with an error; for fully local setups the check is skipped by the
early return. -/
theorem checkServerSyntax_https_requires_ssl_distributed (windows : Bool)
    (isLocalHost : String → Bool) (gh gp serverAddr : String) (disks : List String)
    (endpoints : List URL) (u : URL)
    (hparse : parseStorageEndpoints gh gp disks = .ok endpoints)
    (hdist : isDistributedSetup isLocalHost endpoints = true)
    (hmem : u ∈ endpoints) (hs : u.scheme = "https") :
    ∃ e, checkServerSyntax windows isLocalHost false gh gp serverAddr disks = .error e := by
  cases hsp : splitHostPort serverAddr with
  | error e => exact ⟨e, by simp [checkServerSyntax, hsp]⟩
  | ok hp =>
    obtain ⟨host, portStr⟩ := hp
    cases hsyn : checkEndpointsSyntax windows endpoints disks with
    | error e => exact ⟨e, by simp [checkServerSyntax, hsp, hparse, hsyn]⟩
    | ok u1 =>
      cases hdup : checkDuplicateEndpoints endpoints with
      | error e => exact ⟨e, by simp [checkServerSyntax, hsp, hparse, hsyn, hdup]⟩
      | ok u2 =>
        cases hcls : classifyDisks endpoints with
        | error e => exact ⟨e, by simp [checkServerSyntax, hsp, hparse, hsyn, hdup, hcls]⟩
        | ok u3 =>
          cases hhm : (if host ≠ "" then hostMatchCheck serverAddr portStr endpoints disks
              else .ok ()) with
          | error e =>
            exact ⟨e, by simp [checkServerSyntax, hsp, hparse, hsyn, hdup, hcls, hdist, hhm]⟩
          | ok u4 =>
            exact ⟨certsNotProvidedErr,
              by simp [checkServerSyntax, hsp, hparse, hsyn, hdup, hcls, hdist, hhm,
                checkSchemeHttps_error_of_mem hmem hs]⟩

/-- Witness for `checkServerSyntax_https_requires_ssl_distributed` at a
concrete input. -/
theorem checkServerSyntax_https_requires_ssl_distributed_witness :
    ∃ e, checkServerSyntax false (fun _ => false) false "myhost" "9000" "myhost:9000"
      ["https://h1:9000/d1", "https://h2:9000/d2", "https://h3:9000/d3", "https://h4:9000/d4"] =
      .error e :=
  checkServerSyntax_https_requires_ssl_distributed false (fun _ => false) "myhost" "9000"
    "myhost:9000"
    ["https://h1:9000/d1", "https://h2:9000/d2", "https://h3:9000/d3", "https://h4:9000/d4"]
    [⟨"https", "h1:9000", "/d1", ""⟩, ⟨"https", "h2:9000", "/d2", ""⟩,
      ⟨"https", "h3:9000", "/d3", ""⟩, ⟨"https", "h4:9000", "/d4", ""⟩]
    ⟨"https", "h1:9000", "/d1", ""⟩ (by decide) (by decide) (by decide) (by decide)

theorem notAvailable_ne_matches (serverAddr : String) (n : Nat) (disks : List String) :
    notAvailableErr serverAddr disks ≠ matchesEntriesErr serverAddr n disks := by
  unfold notAvailableErr matchesEntriesErr
  intro h
  have h2 := congrArg (fun s => s.data.drop serverAddr.data.length) h
  simp only [String.data_append, List.append_assoc, List.drop_left] at h2
  have h3 := congrArg (fun l => l.get? 1) h2
  simp [List.get?] at h3

/-- Claim C6 counterexample: a bind address with an explicit host, a single
local-path endpoint list on which zero endpoints match the bind address,
yet `checkServerSyntax` succeeds — the endpoint-match rule is skipped by the
early non-distributed return. -/
theorem checkServerSyntax_bind_host_skipped_cex :
    splitHostPort "myhost:9000" = .ok ("myhost", "9000") ∧
    parseStorageEndpoints "myhost" "9000" ["/data"] = .ok [⟨"", "", "/data", ""⟩] ∧
    ([⟨"", "", "/data", ""⟩] : List URL).countP (fun ep => ep.host = "myhost:9000") = 0 ∧
    checkServerSyntax false (fun _ => false) true "myhost" "9000" "myhost:9000" ["/data"] =
      .ok () := by
  decide

/-- Claim C6 (amended): for every endpoint list that is part of a
distributed setup, validated with a bind address carrying an explicit host
and port, zero endpoints whose `host:port` textually equals the bind
address is a fatal error, more than one match is a fatal error, and the two
diagnostics are distinct from each other; for fully local setups the rule
is skipped by the early return. -/
theorem checkServerSyntax_bind_host_match_distributed (windows : Bool)
    (isLocalHost : String → Bool) (ssl : Bool) (gh gp serverAddr : String)
    (disks : List String) (endpoints : List URL) (host portStr : String)
    (hsp : splitHostPort serverAddr = .ok (host, portStr))
    (hhost : host ≠ "") (hps : portStr ≠ "")
    (hparse : parseStorageEndpoints gh gp disks = .ok endpoints)
    (hsyn : checkEndpointsSyntax windows endpoints disks = .ok ())
    (hdup : checkDuplicateEndpoints endpoints = .ok ())
    (hcls : classifyDisks endpoints = .ok ())
    (hdist : isDistributedSetup isLocalHost endpoints = true) :
    (endpoints.countP (fun ep => ep.host = serverAddr) = 0 →
      checkServerSyntax windows isLocalHost ssl gh gp serverAddr disks =
        .error (notAvailableErr serverAddr disks)) ∧
    (endpoints.countP (fun ep => ep.host = serverAddr) > 1 →
      checkServerSyntax windows isLocalHost ssl gh gp serverAddr disks =
        .error (matchesEntriesErr serverAddr
          (endpoints.countP (fun ep => ep.host = serverAddr)) disks)) ∧
    (∀ n, notAvailableErr serverAddr disks ≠ matchesEntriesErr serverAddr n disks) := by
  refine ⟨?_, ?_, fun n => notAvailable_ne_matches serverAddr n disks⟩
  · intro hc
    simp [checkServerSyntax, hsp, hparse, hsyn, hdup, hcls, hdist, hostMatchCheck, hhost, hps, hc]
  · intro hc
    have hc0 : ¬ endpoints.countP (fun ep => ep.host = serverAddr) = 0 := by omega
    simp [checkServerSyntax, hsp, hparse, hsyn, hdup, hcls, hdist, hostMatchCheck, hhost, hps,
      hc0, hc]

/-- Witness for `checkServerSyntax_bind_host_match_distributed` at a
concrete input with zero matches. -/
theorem checkServerSyntax_bind_host_match_distributed_witness :
    checkServerSyntax false (fun _ => false) true "myhost" "9000" "myhost:9000"
      ["http://h1:9000/d1", "http://h2:9000/d2", "http://h3:9000/d3", "http://h4:9000/d4"] =
      .error (notAvailableErr "myhost:9000"
        ["http://h1:9000/d1", "http://h2:9000/d2", "http://h3:9000/d3", "http://h4:9000/d4"]) :=
  (checkServerSyntax_bind_host_match_distributed false (fun _ => false) true "myhost" "9000"
      "myhost:9000"
      ["http://h1:9000/d1", "http://h2:9000/d2", "http://h3:9000/d3", "http://h4:9000/d4"]
      [⟨"http", "h1:9000", "/d1", ""⟩, ⟨"http", "h2:9000", "/d2", ""⟩,
        ⟨"http", "h3:9000", "/d3", ""⟩, ⟨"http", "h4:9000", "/d4", ""⟩]
      "myhost" "9000" (by decide) (by decide) (by decide) (by decide) (by decide) (by decide)
      (by decide) (by decide)).1 (by decide)

/-- Claim C7: a validated endpoint list of size exactly one is classified as
a single-disk (FS) deployment, and `checkServerSyntax` fails with the FS
diagnostic when that single endpoint carries both a non-empty host and a
non-empty scheme. -/
theorem checkServerSyntax_single_disk_fs (windows : Bool) (isLocalHost : String → Bool)
    (ssl : Bool) (gh gp serverAddr : String) (disks : List String) (u : URL)
    (host portStr : String) (hsp : splitHostPort serverAddr = .ok (host, portStr))
    (hparse : parseStorageEndpoints gh gp disks = .ok [u])
    (hsyn : checkEndpointsSyntax windows [u] disks = .ok ())
    (hhost : u.host ≠ "") (hscheme : u.scheme ≠ "") :
    checkServerSyntax windows isLocalHost ssl gh gp serverAddr disks = .error (fsSetupErr u) := by
  have hdup : checkDuplicateEndpoints [u] = .ok () := by simp [checkDuplicateEndpoints]
  have hcls : classifyDisks [u] = .error (fsSetupErr u) := by
    simp [classifyDisks, hhost, hscheme]
  simp [checkServerSyntax, hsp, hparse, hsyn, hdup, hcls]

/-- Witness for `checkServerSyntax_single_disk_fs` at a concrete input. -/
theorem checkServerSyntax_single_disk_fs_witness :
    checkServerSyntax false (fun _ => false) false "myhost" "9000" "myhost:9000"
      ["http://h:9000/d1"] = .error (fsSetupErr ⟨"http", "h:9000", "/d1", ""⟩) :=
  checkServerSyntax_single_disk_fs false (fun _ => false) false "myhost" "9000" "myhost:9000"
    ["http://h:9000/d1"] ⟨"http", "h:9000", "/d1", ""⟩ "myhost" "9000"
    (by decide) (by decide) (by decide) (by decide) (by decide)

theorem charListLt_asymm : ∀ (a b : List Char),
    charListLt a b = true → charListLt b a = true → False
  | [], [], h1, _ => by simp [charListLt] at h1
  | [], _ :: _, _, h2 => by simp [charListLt] at h2
  | _ :: _, [], h1, _ => by simp [charListLt] at h1
  | a :: as, b :: bs, h1, h2 => by
    unfold charListLt at h1 h2
    by_cases hab : a < b
    · rw [if_neg (lt_asymm hab), if_pos hab] at h2
      cases h2
    · by_cases hba : b < a
      · rw [if_neg hab, if_pos hba] at h1
        cases h1
      · rw [if_neg hab, if_neg hba] at h1
        rw [if_neg hba, if_neg hab] at h2
        exact charListLt_asymm as bs h1 h2

theorem charListLt_trans : ∀ (a b c : List Char),
    charListLt a b = true → charListLt b c = true → charListLt a c = true
  | [], [], _, h1, _ => by simp [charListLt] at h1
  | [], _ :: _, [], _, h2 => by simp [charListLt] at h2
  | [], _ :: _, _ :: _, _, _ => by simp [charListLt]
  | _ :: _, [], _, h1, _ => by simp [charListLt] at h1
  | _ :: _, _ :: _, [], _, h2 => by simp [charListLt] at h2
  | a :: as, b :: bs, c :: cs, h1, h2 => by
    unfold charListLt at h1 h2 ⊢
    by_cases hab : a < b
    · by_cases hbc : b < c
      · rw [if_pos (lt_trans hab hbc)]
      · by_cases hcb : c < b
        · rw [if_neg hbc, if_pos hcb] at h2
          cases h2
        · have hbceq : b = c := le_antisymm (not_lt.mp hcb) (not_lt.mp hbc)
          subst hbceq
          rw [if_pos hab]
    · by_cases hba : b < a
      · rw [if_neg hab, if_pos hba] at h1
        cases h1
      · have habeq : a = b := le_antisymm (not_lt.mp hba) (not_lt.mp hab)
        subst habeq
        rw [if_neg hab, if_neg hba] at h1
        by_cases hac : a < c
        · rw [if_pos hac]
        · by_cases hca : c < a
          · rw [if_neg hac, if_pos hca] at h2
            cases h2
          · have haceq : a = c := le_antisymm (not_lt.mp hca) (not_lt.mp hac)
            subst haceq
            rw [if_neg hac, if_neg hac]
            rw [if_neg hac, if_neg hac] at h2
            exact charListLt_trans as bs cs h1 h2

theorem charListLt_eq_of_not : ∀ (a b : List Char),
    charListLt a b = false → charListLt b a = false → a = b
  | [], [], _, _ => rfl
  | [], _ :: _, h1, _ => by simp [charListLt] at h1
  | _ :: _, [], _, h2 => by simp [charListLt] at h2
  | a :: as, b :: bs, h1, h2 => by
    unfold charListLt at h1 h2
    by_cases hab : a < b
    · rw [if_pos hab] at h1
      cases h1
    · by_cases hba : b < a
      · rw [if_pos hba] at h2
        cases h2
      · rw [if_neg hab, if_neg hba] at h1
        rw [if_neg hba, if_neg hab] at h2
        have heq : a = b := le_antisymm (not_lt.mp hba) (not_lt.mp hab)
        rw [heq, charListLt_eq_of_not as bs h1 h2]

theorem strEq_of_not_lt {a b : String} (h1 : strLt a b = false) (h2 : strLt b a = false) :
    a = b := by
  have h3 := charListLt_eq_of_not a.data b.data h1 h2
  cases a
  cases b
  exact congrArg String.mk h3

theorem strLt_trans {a b c : String} (h1 : strLt a b = true) (h2 : strLt b c = true) :
    strLt a c = true :=
  charListLt_trans a.data b.data c.data h1 h2

theorem strLt_asymm {a b : String} (h1 : strLt a b = true) (h2 : strLt b a = true) : False :=
  charListLt_asymm a.data b.data h1 h2

theorem hostPathLe_total (u v : URL) : hostPathLe u v = true ∨ hostPathLe v u = true := by
  by_cases hh : u.host = v.host
  · by_cases hp : u.path = v.path
    · left
      simp [hostPathLe, hh, hp]
    · cases h1 : strLt u.path v.path with
      | true =>
        left
        simp [hostPathLe, hh, h1]
      | false =>
        cases h2 : strLt v.path u.path with
        | true =>
          right
          simp [hostPathLe, hh, h2]
        | false => exact absurd (strEq_of_not_lt h1 h2) hp
  · have hvu : ¬ v.host = u.host := fun h => hh h.symm
    cases h1 : strLt u.host v.host with
    | true =>
      left
      simp [hostPathLe, hh, h1]
    | false =>
      cases h2 : strLt v.host u.host with
      | true =>
        right
        simp [hostPathLe, hvu, h2]
      | false => exact absurd (strEq_of_not_lt h1 h2) hh

theorem hostPathLe_trans (u v w : URL) (h1 : hostPathLe u v = true)
    (h2 : hostPathLe v w = true) : hostPathLe u w = true := by
  by_cases huv : u.host = v.host <;> by_cases hvw : v.host = w.host
  · have huw : u.host = w.host := huv.trans hvw
    simp only [hostPathLe, if_pos huv] at h1
    simp only [hostPathLe, if_pos hvw] at h2
    simp only [hostPathLe, if_pos huw]
    simp only [Bool.or_eq_true, decide_eq_true_eq] at h1 h2 ⊢
    rcases h1 with h1 | h1 <;> rcases h2 with h2 | h2
    · exact Or.inl (h1.trans h2)
    · right
      rw [h1]
      exact h2
    · right
      rw [← h2]
      exact h1
    · exact Or.inr (strLt_trans h1 h2)
  · have huw : ¬ u.host = w.host := by
      rw [huv]
      exact hvw
    simp only [hostPathLe, if_neg hvw] at h2
    have h3 : strLt u.host w.host = true := by
      rw [huv]
      exact h2
    simp [hostPathLe, huw, h3]
  · have huw : ¬ u.host = w.host := by
      rw [← hvw]
      exact huv
    simp only [hostPathLe, if_neg huv] at h1
    have h3 : strLt u.host w.host = true := by
      rw [← hvw]
      exact h1
    simp [hostPathLe, huw, h3]
  · simp only [hostPathLe, if_neg huv] at h1
    simp only [hostPathLe, if_neg hvw] at h2
    have h3 := strLt_trans h1 h2
    by_cases huw : u.host = w.host
    · exfalso
      rw [huw] at h1
      exact strLt_asymm h1 h2
    · simp [hostPathLe, huw, h3]

theorem hostPathLe_key_antisymm (u v : URL) (h1 : hostPathLe u v = true)
    (h2 : hostPathLe v u = true) : u.host = v.host ∧ u.path = v.path := by
  by_cases hh : u.host = v.host
  · refine ⟨hh, ?_⟩
    have hvu : v.host = u.host := hh.symm
    simp only [hostPathLe, if_pos hh] at h1
    simp only [hostPathLe, if_pos hvu] at h2
    simp only [Bool.or_eq_true, decide_eq_true_eq] at h1 h2
    rcases h1 with h1 | h1
    · exact h1
    rcases h2 with h2 | h2
    · exact h2.symm
    · exact (strLt_asymm h1 h2).elim
  · have hvu : ¬ v.host = u.host := fun h => hh h.symm
    simp only [hostPathLe, if_neg hh] at h1
    simp only [hostPathLe, if_neg hvu] at h2
    exact (strLt_asymm h1 h2).elim

theorem insertHostPath_perm (u : URL) (l : List URL) : (insertHostPath u l).Perm (u :: l) := by
  induction l with
  | nil => exact List.Perm.refl _
  | cons v vs ih =>
    by_cases h : hostPathLe u v = true
    · rw [insertHostPath, if_pos h]
    · rw [insertHostPath, if_neg h]
      exact (ih.cons v).trans (List.Perm.swap u v vs)

theorem sortByHostPath_perm (l : List URL) : (sortByHostPath l).Perm l := by
  induction l with
  | nil => exact List.Perm.refl _
  | cons u us ih => exact (insertHostPath_perm u (sortByHostPath us)).trans (ih.cons u)

theorem insertHostPath_sorted (u : URL) (l : List URL)
    (hl : l.Pairwise (fun a b => hostPathLe a b = true)) :
    (insertHostPath u l).Pairwise (fun a b => hostPathLe a b = true) := by
  induction l with
  | nil => simp [insertHostPath]
  | cons v vs ih =>
    rw [List.pairwise_cons] at hl
    obtain ⟨hv, hvs⟩ := hl
    by_cases h : hostPathLe u v = true
    · rw [insertHostPath, if_pos h, List.pairwise_cons]
      refine ⟨?_, ?_⟩
      · intro x hx
        rcases List.mem_cons.mp hx with rfl | hx2
        · exact h
        · exact hostPathLe_trans u v x h (hv x hx2)
      · rw [List.pairwise_cons]
        exact ⟨hv, hvs⟩
    · rw [insertHostPath, if_neg h, List.pairwise_cons]
      refine ⟨?_, ih hvs⟩
      intro x hx
      rcases List.mem_cons.mp ((insertHostPath_perm u vs).subset hx) with rfl | hx3
      · rcases hostPathLe_total v x with h2 | h2
        · exact h2
        · exact absurd h2 h
      · exact hv x hx3

theorem sortByHostPath_sorted (l : List URL) :
    (sortByHostPath l).Pairwise (fun a b => hostPathLe a b = true) := by
  induction l with
  | nil => simp [sortByHostPath]
  | cons u us ih => exact insertHostPath_sorted u _ ih

theorem sorted_perm_key_inj_eq : ∀ (l1 l2 : List URL), l1.Perm l2 →
    l1.Pairwise (fun a b => hostPathLe a b = true) →
    l2.Pairwise (fun a b => hostPathLe a b = true) →
    (∀ x ∈ l1, ∀ y ∈ l1, x.host = y.host → x.path = y.path → x = y) → l1 = l2
  | [], _, hperm, _, _, _ => (hperm.symm.eq_nil).symm
  | _ :: _, [], hperm, _, _, _ => absurd hperm.eq_nil (by simp)
  | a :: t1, b :: t2, hperm, hs1, hs2, hinj => by
    rw [List.pairwise_cons] at hs1 hs2
    have hab : a = b := by
      rcases List.mem_cons.mp (hperm.subset (List.mem_cons_self a t1)) with h | h
      · exact h
      · have hba : hostPathLe b a = true := hs2.1 a h
        rcases List.mem_cons.mp (hperm.symm.subset (List.mem_cons_self b t2)) with h2 | h2
        · exact h2.symm
        · have hab2 : hostPathLe a b = true := hs1.1 b h2
          obtain ⟨hh, hp⟩ := hostPathLe_key_antisymm a b hab2 hba
          exact hinj a (List.mem_cons_self a t1) b (List.mem_cons.mpr (Or.inr h2)) hh hp
    subst hab
    have ht : t1 = t2 :=
      sorted_perm_key_inj_eq t1 t2 hperm.cons_inv hs1.2 hs2.2
        (fun x hx y hy => hinj x (List.mem_cons.mpr (Or.inr hx)) y (List.mem_cons.mpr (Or.inr hy)))
    rw [ht]

/-- Claim C2 (amended): for every two input orderings of the same multiset
of endpoints in which no two distinct endpoints share both host and path,
`sortByHostPath` produces identical ordered lists; when two distinct
endpoints tie on (host, path) — which validation does not rule out — the
ordering step is not input-order independent. -/
theorem sortByHostPath_deterministic (l1 l2 : List URL) (hperm : l1.Perm l2)
    (hinj : ∀ x ∈ l1, ∀ y ∈ l1, x.host = y.host → x.path = y.path → x = y) :
    sortByHostPath l1 = sortByHostPath l2 :=
  sorted_perm_key_inj_eq (sortByHostPath l1) (sortByHostPath l2)
    ((sortByHostPath_perm l1).trans (hperm.trans (sortByHostPath_perm l2).symm))
    (sortByHostPath_sorted l1) (sortByHostPath_sorted l2)
    (fun x hx y hy =>
      hinj x ((sortByHostPath_perm l1).subset hx) y ((sortByHostPath_perm l1).subset hy))

/-- Witness for `sortByHostPath_deterministic` at a concrete input. -/
theorem sortByHostPath_deterministic_witness :
    sortByHostPath [⟨"http", "b:9000", "/x", ""⟩, ⟨"http", "a:9000", "/y", ""⟩] =
      sortByHostPath [⟨"http", "a:9000", "/y", ""⟩, ⟨"http", "b:9000", "/x", ""⟩] :=
  sortByHostPath_deterministic _ _ (List.Perm.swap _ _ _) (by decide)

/-- Claim C2 counterexample: two input orderings of the same multiset of
endpoints, each of which passes the full `checkServerSyntax` validation, on
which `sortByHostPath` produces different ordered lists — two distinct
validated endpoints (`http` and `https` on the same host) tie on the
(host, path) sort key. -/
theorem sortByHostPath_tie_cex :
    checkServerSyntax false (fun h => h = "myhost:9000") true "myhost" "9000" "myhost:9000"
        ["http://h:9000/d1", "https://h:9000/d1", "http://myhost:9000/d2", "http://h:9000/d3"] =
      .ok () ∧
    checkServerSyntax false (fun h => h = "myhost:9000") true "myhost" "9000" "myhost:9000"
        ["https://h:9000/d1", "http://h:9000/d1", "http://myhost:9000/d2", "http://h:9000/d3"] =
      .ok () ∧
    parseStorageEndpoints "myhost" "9000"
        ["http://h:9000/d1", "https://h:9000/d1", "http://myhost:9000/d2", "http://h:9000/d3"] =
      .ok [⟨"http", "h:9000", "/d1", ""⟩, ⟨"https", "h:9000", "/d1", ""⟩,
        ⟨"http", "myhost:9000", "/d2", ""⟩, ⟨"http", "h:9000", "/d3", ""⟩] ∧
    parseStorageEndpoints "myhost" "9000"
        ["https://h:9000/d1", "http://h:9000/d1", "http://myhost:9000/d2", "http://h:9000/d3"] =
      .ok [⟨"https", "h:9000", "/d1", ""⟩, ⟨"http", "h:9000", "/d1", ""⟩,
        ⟨"http", "myhost:9000", "/d2", ""⟩, ⟨"http", "h:9000", "/d3", ""⟩] ∧
    List.Perm
      [⟨"http", "h:9000", "/d1", ""⟩, ⟨"https", "h:9000", "/d1", ""⟩,
        ⟨"http", "myhost:9000", "/d2", ""⟩, (⟨"http", "h:9000", "/d3", ""⟩ : URL)]
      [⟨"https", "h:9000", "/d1", ""⟩, ⟨"http", "h:9000", "/d1", ""⟩,
        ⟨"http", "myhost:9000", "/d2", ""⟩, ⟨"http", "h:9000", "/d3", ""⟩] ∧
    sortByHostPath
        [⟨"http", "h:9000", "/d1", ""⟩, ⟨"https", "h:9000", "/d1", ""⟩,
          ⟨"http", "myhost:9000", "/d2", ""⟩, ⟨"http", "h:9000", "/d3", ""⟩] ≠
      sortByHostPath
        [⟨"https", "h:9000", "/d1", ""⟩, ⟨"http", "h:9000", "/d1", ""⟩,
          ⟨"http", "myhost:9000", "/d2", ""⟩, ⟨"http", "h:9000", "/d3", ""⟩] :=
  ⟨by decide, by decide, by decide, by decide, List.Perm.swap _ _ _, by decide⟩

/-- Claim C8: `checkEndpointURL` succeeds exactly when the scheme is empty,
`http`, `https`, or — on the drive-letter platform — a single letter
(lower case, as `url.Parse` lower-cases every scheme), and the normalized
path it inspects is not empty, `.`, `/` or a bare backslash; a bad
normalized path yields the empty-or-root-path error, and any other
non-empty scheme yields the invalid-scheme error. -/
theorem checkEndpointURL_characterization (windows : Bool) (u : URL) :
    (checkEndpointURL windows u = .ok () ↔
      schemeOkB windows u = true ∧
        ∃ p, normalizedPath windows u = some p ∧ badPathB p = false) ∧
    (∀ p, normalizedPath windows u = some p → badPathB p = true →
      checkEndpointURL windows u = .error "Empty or root path is not allowed") ∧
    (schemeOkB windows u = false → checkEndpointURL windows u = .error "Invalid scheme") := by
  by_cases h1 : (u.scheme = "" || u.scheme = "http" || u.scheme = "https") = true
  · by_cases h2 : badPathB (pathClean u.path) = true
    · refine ⟨?_, ?_, ?_⟩ <;>
        simp [checkEndpointURL, schemeOkB, normalizedPath, h1, h2]
    · refine ⟨?_, ?_, ?_⟩ <;>
        simp [checkEndpointURL, schemeOkB, normalizedPath, h1,
          Bool.eq_false_iff.mpr h2]
  · by_cases h3 : (windows && driveLetterB u.scheme) = true
    · cases h4 : afterFirstC ':' (pathClean u.render).data with
      | none =>
        refine ⟨?_, ?_, ?_⟩ <;>
          simp [checkEndpointURL, schemeOkB, normalizedPath, h1, h3, h4]
      | some p =>
        by_cases h5 : badPathB (String.mk p) = true
        · refine ⟨?_, ?_, ?_⟩ <;>
            simp [checkEndpointURL, schemeOkB, normalizedPath, h1, h3, h4, h5]
        · refine ⟨?_, ?_, ?_⟩ <;>
            simp [checkEndpointURL, schemeOkB, normalizedPath, h1, h3, h4,
              Bool.eq_false_iff.mpr h5]
    · refine ⟨?_, ?_, ?_⟩ <;>
        simp [checkEndpointURL, schemeOkB, normalizedPath, h1, h3]

/-- Witness for `checkEndpointURL_characterization` at a concrete input:
an `ftp` scheme is rejected as an invalid scheme. -/
theorem checkEndpointURL_characterization_witness :
    checkEndpointURL false ⟨"ftp", "", "/a", ""⟩ = .error "Invalid scheme" :=
  (checkEndpointURL_characterization false ⟨"ftp", "", "/a", ""⟩).2.2 (by decide)

end ServerMain
